import Mathlib

/-!
# FlashpointGameServer: failover router and content-type resolver

A shallow embedding of `main.go`: the settings record, the content-type
resolver `setContentType`, and the `proxy.OnRequest` handler of `main`.

Go strings are modelled by Lean `String`s (the only bytes the code inspects,
`.`, `:`, `/` and `\`, are ASCII, so scanning characters agrees with scanning
bytes).  Go maps are modelled by association lists read by first match.  A Go
pointer that may be `nil` is an `Option`.  In-place mutation through a pointer
is modelled by returning the updated value.
-/

namespace FlashpointGameServer

/-! ## Settings (`type ProxySettings struct`) -/

/-- The settings record `ProxySettings` of `main.go`. -/
structure ProxySettings where
  AllowCrossDomain : Bool := false
  VerboseLogging : Bool := false
  ProxyPort : String := ""
  ServerHTTPPort : String := ""
  ServerHTTPSPort : String := ""
  GameRootPath : String := ""
  ApiPrefix : String := ""
  ExternalFilePaths : List String := []
  ExtScriptTypes : List String := []
  ExtIndexTypes : List String := []
  ExtMimeTypes : List (String × String) := []
  UseMad4FP : Bool := false
  LegacyGoPort : String := ""
  LegacyPHPPort : String := ""
  LegacyPHPPath : String := ""
  LegacyUsePHPServer : Bool := false
  LegacyHTDOCSPath : String := ""
  LegacyCGIBINPath : String := ""
  PhpCgiPath : String := ""

/-- Go's `m[k]` on a `map[string]string`: the stored value, or the zero value
`""` when the key is absent. -/
def mapIndex (m : List (String × String)) (k : String) : String :=
  (m.lookup k).getD ""

/-- Go's `m[k] = v` on a map: the entry for `k` is replaced, every other entry
is kept. -/
def mapAssign {β : Type} (m : List (String × β)) (k : String) (v : β) : List (String × β) :=
  (k, v) :: m.filter (fun e => !(e.1 == k))

/-! ## Standard-library helpers used by the source -/

/-- The target operating system of the build, which fixes `os.IsPathSeparator`. -/
inductive GOOS where
  | windows
  | unix
  deriving DecidableEq, Repr

/-- Go's `os.IsPathSeparator`: `/` everywhere, and also `\` on Windows. -/
def IsPathSeparator (goos : GOOS) (c : Char) : Bool :=
  c == '/' || (goos == GOOS.windows && c == Char.ofNat 92)

/-- The loop of Go's `filepath.Ext`: walk from the last character towards the
first, stop at a path separator (no extension), return the suffix starting at
the first `.` met.  `rev` is what is still to be visited (reversed), `acc` the
suffix already walked over. -/
def extLoop (goos : GOOS) : List Char → List Char → List Char
  | [], _ => []
  | c :: rev, acc =>
    if IsPathSeparator goos c then []
    else if c == '.' then c :: acc
    else extLoop goos rev (c :: acc)

/-- Go's `filepath.Ext(path)`. -/
def Ext (goos : GOOS) (path : String) : String :=
  ⟨extLoop goos path.data.reverse []⟩

/-- Go's slice expression `s[1:]` on a string known to be non-empty. -/
def sliceFrom1 (s : String) : String :=
  ⟨s.data.drop 1⟩

/-- Go's `validHeaderFieldByte` of `net/textproto`: the HTTP token characters. -/
def validHeaderFieldByte (c : Char) : Bool :=
  c.isAlphanum || "!#$%&'*+-.^_`|~".data.contains c

/-- The case-fixing loop of `canonicalMIMEHeaderKey`: upper case at the start
and after every `-`, lower case elsewhere. -/
def canonLoop : Bool → List Char → List Char
  | _, [] => []
  | upper, c :: cs =>
    let c1 := if upper && c.isLower then c.toUpper
              else if !upper && c.isUpper then c.toLower
              else c
    c1 :: canonLoop (c1 == '-') cs

/-- Go's `textproto.CanonicalMIMEHeaderKey`: a key with a character that is
not a token character is returned unchanged, any other key is case-fixed. -/
def CanonicalMIMEHeaderKey (s : String) : String :=
  if s.data.all validHeaderFieldByte then ⟨canonLoop true s.data⟩ else s

/-- Go's `http.Header`, a `map[string][]string`. -/
abbrev Header := List (String × List String)

/-- Go's `Header.Get`: the first value stored under the canonical key, or `""`. -/
def Header.Get (h : Header) (key : String) : String :=
  match h.lookup (CanonicalMIMEHeaderKey key) with
  | some (v :: _) => v
  | _ => ""

/-- Go's `Header.Set`: the canonical key now holds the single value `value`. -/
def Header.Set (h : Header) (key value : String) : Header :=
  mapAssign h (CanonicalMIMEHeaderKey key) [value]

/-- Go's `h[key]` on a header map: all values stored under `key` (no
canonicalisation), empty when absent. -/
def Header.values (h : Header) (key : String) : List String :=
  (h.lookup key).getD []

/-! ## Requests and responses (`net/http`, `net/url`) -/

/-- The fields of Go's `url.URL` record. -/
structure URL where
  Scheme : String := ""
  Opaque : String := ""
  User : Option String := none
  Host : String := ""
  Path : String := ""
  RawPath : String := ""
  OmitHost : Bool := false
  ForceQuery : Bool := false
  RawQuery : String := ""
  Fragment : String := ""
  RawFragment : String := ""
  deriving DecidableEq, Repr

/-- Go's `tls.ConnectionState`, of which the source only tests presence. -/
structure ConnectionState where
  Version : Nat := 0
  ServerName : String := ""
  deriving DecidableEq, Repr

/-- The fields of Go's `http.Request` that the source reads or writes. -/
structure Request where
  Method : String := ""
  URL : URL := {}
  Header : Header := []
  Body : String := ""
  Host : String := ""
  RequestURI : String := ""
  TLS : Option ConnectionState := none
  deriving DecidableEq, Repr

/-- The fields of Go's `http.Response` that matter to the router. -/
structure Response where
  StatusCode : Int := 0
  Header : Header := []
  Body : String := ""
  deriving DecidableEq, Repr

/-! ## `setContentType` (main.go, lines 125-148) -/

/-- The function `setContentType(r, resp)`.  The response is mutated in place in
the source; here the updated response is returned. -/
def setContentType (s : ProxySettings) (goos : GOOS) (r : Option Request)
    (resp : Option Response) : Option Response :=
  match r, resp with
  | none, _ => resp
  | _, none => resp
  | some r, some resp =>
    let rext := Ext goos (resp.Header.Get "ZIPSVR_FILENAME")
    let ext := Ext goos r.URL.Path
    if ext ≠ "" then
      some { resp with Header := resp.Header.Set "Content-Type" (mapIndex s.ExtMimeTypes (sliceFrom1 ext)) }
    else if rext ≠ "" then
      some { resp with Header := resp.Header.Set "Content-Type" (mapIndex s.ExtMimeTypes (sliceFrom1 rext)) }
    else
      some { resp with Header := resp.Header.Set "Content-Type" (mapIndex s.ExtMimeTypes "default") }

/-! ## The request handler of `main` (main.go, lines 152-216) -/

/-- Go's `strings.Split` for a one-character separator, on character lists:
the pieces between the separators, in order; never the empty list. -/
def splitChars (sep : Char) : List Char → List (List Char)
  | [] => [[]]
  | c :: cs =>
    if c == sep then [] :: splitChars sep cs
    else
      match splitChars sep cs with
      | [] => [[c]]
      | x :: xs => (c :: x) :: xs

/-- Go's `strings.Split(s, sep)` for a one-character separator. -/
def stringsSplit (s : String) (sep : Char) : List String :=
  (splitChars sep s.data).map String.mk

/-- Line 154: `r.URL.Host = strings.Split(r.URL.Host, ":")[0]`, an in-place
update of the inbound request.  (`Split` never returns an empty slice, so the
index `[0]` cannot fail.) -/
def stripHostPort (r : Request) : Request :=
  { r with URL := { r.URL with Host := (stringsSplit r.URL.Host ':').headD "" } }

/-- Lines 156-165: `newURL`, a copy of `*r.URL` with path and host rewritten;
`r` is the request after line 154. -/
def rewriteURL (s : ProxySettings) (r : Request) : URL :=
  let newURL := r.URL
  if r.TLS.isNone then
    { newURL with Path := "content/" ++ r.URL.Host ++ r.URL.Path,
                  Host := "127.0.0.1:" ++ s.ServerHTTPPort }
  else
    { newURL with Path := "content/" ++ r.URL.Host ++ r.URL.Path,
                  Host := "127.0.0.1:" ++ s.ServerHTTPSPort }

/-- Go's `net.Dialer`, with the two fields the source sets (in seconds). -/
structure Dialer where
  Timeout : Nat := 0
  KeepAlive : Nat := 0
  deriving DecidableEq, Repr

/-- One call `dialer.DialContext(ctx, network, addr)`: the dialer used and the
network and address handed to it. -/
structure DialCall where
  dialer : Dialer
  network : String
  addr : String
  deriving DecidableEq, Repr

/-- Go's `http.Transport`, with the two fields the source sets.  `Proxy` is
the URL given to `http.ProxyURL` (`none` for a nil URL); `DialContext` maps
the network and address requested by the HTTP stack to the dial it performs. -/
structure Transport where
  Proxy : Option URL
  DialContext : String → String → DialCall

/-- Go's `http.Client`, with the two fields the source sets (timeout in
seconds); `Transport = none` is the default transport. -/
structure Client where
  Transport : Option Transport := none
  Timeout : Nat := 0

/-- What `client.Do` hands back: a response pointer and an error, either of
which may be nil. -/
structure DoResult where
  resp : Option Response
  err : Option String
  deriving DecidableEq, Repr

/-- The standard-library and network behaviour the handler runs against. -/
structure Env where
  /-- The method `(*url.URL).String`. -/
  urlString : URL → String
  /-- The function `url.Parse`; `none` when it reports an error. -/
  urlParse : String → Option URL
  /-- The function `http.NewRequest(method, url, body)`; `none` when it reports an
  error (the request pointer is then nil). -/
  NewRequest : String → String → String → Option Request
  /-- The method `(*http.Client).Do`. -/
  Do : Client → Request → DoResult

/-- How a run of the handler ends: with a Go run-time panic, or by returning
the pair `(r, proxyResp)`. -/
inductive HandlerResult where
  | panic (msg : String)
  | returned (r : Request) (resp : Option Response)
  deriving DecidableEq, Repr

/-- What the handler does that is visible from outside, in order. -/
inductive Event where
  | printf (line : String)
  | clientDo (client : Client) (req : Request)

/-- Lines 182-185: the legacy port. -/
def legacyPort (s : ProxySettings) : String :=
  let port := s.LegacyGoPort
  if s.LegacyUsePHPServer then s.LegacyPHPPort else port

/-- Lines 193-198: the `DialContext` closure of the fallback transport. -/
def fallbackDialContext (port : String) (network addr : String) : DialCall :=
  let dialer : Dialer := { Timeout := 30, KeepAlive := 30 }
  let addr := (fun _ => "127.0.0.1:" ++ port) addr
  { dialer := dialer, network := network, addr := addr }

/-- Lines 188-198: the fallback transport. -/
def fallbackTransport (env : Env) (port : String) : Transport :=
  let proxyURL := env.urlParse ("http://127.0.0.1:" ++ port)
  { Proxy := proxyURL, DialContext := fallbackDialContext port }

/-- Lines 178-206, the body of `if proxyResp.StatusCode >= 400`: the events,
the request after `r.RequestURI = ""`, and the result of the legacy call. -/
def checkLegacy (env : Env) (s : ProxySettings) (r : Request) :
    List Event × Request × DoResult :=
  let port := legacyPort s
  let transport := fallbackTransport env port
  let r : Request := { r with RequestURI := "" }
  let client : Client := { Transport := some transport, Timeout := 300 }
  ([Event.printf "\tServing from Legacy...\n", Event.clientDo client r], r, env.Do client r)

/-- Lines 209-211: `if err != nil { fmt.Printf("UNHANDLED ERROR: %s\n", err) }`. -/
def logError : Option String → List Event
  | some e => [Event.printf ("UNHANDLED ERROR: " ++ e ++ "\n")]
  | none => []

/-- The handler passed to `proxy.OnRequest().DoFunc`: the events it produces
and either the panic it raises or the pair `(r, proxyResp)` it returns. -/
def onRequest (env : Env) (s : ProxySettings) (goos : GOOS) (r : Request) :
    List Event × HandlerResult :=
  let r := stripHostPort r
  let ev := [Event.printf ("Proxy Request: " ++ (r.URL.Host ++ r.URL.Path) ++ "\n")]
  let newURL := rewriteURL s r
  let client : Client := {}
  match env.NewRequest r.Method (env.urlString newURL) r.Body with
  | none => (ev, HandlerResult.panic "nil pointer dereference (proxyReq.Header)")
  | some proxyReq =>
    let proxyReq := { proxyReq with Header := r.Header }
    let d := env.Do client proxyReq
    let ev := ev ++ [Event.clientDo client proxyReq]
    match d.resp with
    | none => (ev, HandlerResult.panic "nil pointer dereference (proxyResp.StatusCode)")
    | some proxyResp =>
      let ev := if proxyResp.StatusCode < 400 then ev ++ [Event.printf "\tServing from Zip...\n"] else ev
      let st : List Event × Request × DoResult :=
        if proxyResp.StatusCode ≥ 400 then
          let l := checkLegacy env s r
          (ev ++ l.1, l.2.1, l.2.2)
        else (ev, r, d)
      let ev := st.1 ++ logError st.2.2.err
      (ev, HandlerResult.returned st.2.1 (setContentType s goos (some st.2.1) st.2.2.resp))

/-- The calls `client.Do` among the events, in order. -/
def doCalls : List Event → List (Client × Request)
  | [] => []
  | Event.clientDo c q :: es => (c, q) :: doCalls es
  | Event.printf _ :: es => doCalls es

/-- The requests sent through a client with a custom transport, that is, the
fallback attempts against the legacy backend. -/
def legacyAttempts (es : List Event) : List Request :=
  ((doCalls es).filter (fun cq => cq.1.Transport.isSome)).map (fun cq => cq.2)

/-- The requests sent through the default client, that is, to the primary
backend. -/
def primaryAttempts (es : List Event) : List Request :=
  ((doCalls es).filter (fun cq => cq.1.Transport.isNone)).map (fun cq => cq.2)

/-- The dials the fallback transports among the events perform when the HTTP
stack asks them for `network` and `addr`. -/
def dialCalls (es : List Event) (network addr : String) : List DialCall :=
  (doCalls es).filterMap (fun cq => cq.1.Transport.map (fun t => t.DialContext network addr))

/-! ## The specification's wording, for comparison with the code -/

/-- The last element of a path: what follows its last separator. -/
def lastElement (goos : GOOS) (p : List Char) : List Char :=
  (p.reverse.takeWhile (fun c => !IsPathSeparator goos c)).reverse

/-- The file extension in the specification's words: the suffix of the last
path element starting at its last `.`, empty when that element has no `.`. -/
def specExtension (goos : GOOS) (p : String) : String :=
  let el := lastElement goos p.data
  if el.contains '.' then ⟨'.' :: (el.reverse.takeWhile (fun c => !(c == '.'))).reverse⟩ else ""

/-- The resolver `Resolve(requestPath, backendReportedFilename)` in the
specification's words, first match wins. -/
def Resolve (m : List (String × String)) (goos : GOOS) (requestPath backendReportedFilename : String) :
    String :=
  if specExtension goos requestPath ≠ "" then
    mapIndex m (sliceFrom1 (specExtension goos requestPath))
  else if specExtension goos backendReportedFilename ≠ "" then
    mapIndex m (sliceFrom1 (specExtension goos backendReportedFilename))
  else mapIndex m "default"

/-! ## Sample data -/

/-- A sample extension table. -/
def sampleMime : List (String × String) :=
  [("default", "application/octet-stream"), ("html", "text/html"),
   ("swf", "application/x-shockwave-flash"), ("mp4", "video/mp4")]

/-- Sample settings with the default ports of `init`. -/
def sampleSettings : ProxySettings :=
  { ProxyPort := "22500", ServerHTTPPort := "22501", ServerHTTPSPort := "22502",
    LegacyGoPort := "22601", LegacyPHPPort := "22600", LegacyUsePHPServer := true,
    ExtMimeTypes := sampleMime }

/-- A sample inbound request, `GET http://classicgame.com:8080/index.html`. -/
def sampleRequest : Request :=
  { Method := "GET",
    URL := { Scheme := "http", Host := "classicgame.com:8080", Path := "/index.html", RawQuery := "a=1" },
    Header := [("Accept", ["*/*"])],
    Host := "classicgame.com:8080",
    RequestURI := "http://classicgame.com:8080/index.html?a=1" }

/-- A sample environment: the primary backend answers with `primary`, the
legacy backend (reached through a client with a transport) with `legacy`. -/
def sampleEnv (primary legacy : DoResult) : Env :=
  { urlString := fun u => u.Scheme ++ "://" ++ u.Host ++ "/" ++ u.Path ++ "?" ++ u.RawQuery,
    urlParse := fun _ => none,
    NewRequest := fun method _ body => some { Method := method, Body := body },
    Do := fun c _ => if c.Transport.isSome then legacy else primary }

/-- A request for `/game/file.xyz`, an extension absent from `sampleMime`. -/
def unmappedRequest : Request :=
  { Method := "GET", URL := { Scheme := "http", Host := "classicgame.com", Path := "/game/file.xyz" } }

/-- A request for `/game/noext`, a path without extension. -/
def noextRequest : Request :=
  { Method := "GET", URL := { Scheme := "http", Host := "classicgame.com", Path := "/game/noext" } }

/-- A primary response whose backend-reported filename has the mapped
extension `swf`. -/
def swfResponse : Response :=
  { StatusCode := 200, Header := [("Zipsvr_filename", ["archive/member.swf"])], Body := "FWS" }

/-- A primary response whose backend-reported filename has the unmapped
extension `xyz`. -/
def xyzResponse : Response :=
  { StatusCode := 200, Header := [("Zipsvr_filename", ["archive/member.xyz"])], Body := "?" }

/-- A primary response `200` with a stale Content-Type and one more header. -/
def okResponse : Response :=
  { StatusCode := 200,
    Header := [("Content-Type", ["application/x-wrong"]), ("Content-Length", ["13"])],
    Body := "<html></html>" }

/-- A `404` response. -/
def notFoundResponse : Response :=
  { StatusCode := 404, Header := [("Content-Type", ["text/plain"])], Body := "not found" }

/-- A legacy response `200`. -/
def legacyResponse : Response :=
  { StatusCode := 200, Header := [("X-Powered-By", ["PHP"])], Body := "<html>...</html>" }

/-- A request that arrived over an intercepted TLS tunnel, for another host. -/
def tlsRequest : Request :=
  { Method := "POST",
    URL := { Scheme := "https", Host := "other.example:443", Path := "/api/score.php" },
    Host := "other.example:443",
    TLS := some { Version := 771, ServerName := "other.example" } }

/-! ## Lemmas on maps and headers -/

theorem lookup_mapAssign_self {β : Type} (m : List (String × β)) (k : String) (v : β) :
    (mapAssign m k v).lookup k = some v := by
  simp [mapAssign, List.lookup]

theorem lookup_filter_ne {β : Type} (m : List (String × β)) (k k1 : String) (h : k1 ≠ k) :
    (m.filter (fun e => !(e.1 == k))).lookup k1 = m.lookup k1 := by
  induction m with
  | nil => rfl
  | cons e m ih =>
    obtain ⟨a, b⟩ := e
    by_cases hak : a = k
    · subst hak
      have hne : (k1 == a) = false := by simpa using h
      simp [List.filter, List.lookup, hne, ih]
    · have hf : (!(a == k)) = true := by simpa using hak
      simp only [List.filter, hf, List.lookup]
      cases hka : (k1 == a) with
      | true => rfl
      | false => simpa using ih

theorem lookup_mapAssign_ne {β : Type} (m : List (String × β)) (k k1 : String) (v : β)
    (h : k1 ≠ k) : (mapAssign m k v).lookup k1 = m.lookup k1 := by
  have hne : (k1 == k) = false := by simpa using h
  simp only [mapAssign, List.lookup, hne]
  exact lookup_filter_ne m k k1 h

theorem canonical_contentType : CanonicalMIMEHeaderKey "Content-Type" = "Content-Type" := by
  decide

theorem Header.get_set_contentType (h : Header) (v : String) :
    (h.Set "Content-Type" v).Get "Content-Type" = v := by
  simp [Header.Get, Header.Set, canonical_contentType, lookup_mapAssign_self]

theorem Header.values_set_contentType (h : Header) (v : String) :
    (h.Set "Content-Type" v).values "Content-Type" = [v] := by
  simp [Header.values, Header.Set, canonical_contentType, lookup_mapAssign_self]

theorem Header.values_set_other (h : Header) (v k : String) (hk : k ≠ "Content-Type") :
    (h.Set "Content-Type" v).values k = h.values k := by
  simp [Header.values, Header.Set, canonical_contentType, lookup_mapAssign_ne _ _ _ _ hk]

/-! ## Lemmas on `filepath.Ext` -/

theorem extLoop_eq (goos : GOOS) (rev acc : List Char) :
    extLoop goos rev acc =
      if (rev.takeWhile (fun c => !IsPathSeparator goos c)).contains '.' then
        '.' :: (((rev.takeWhile (fun c => !IsPathSeparator goos c)).takeWhile
          (fun c => !(c == '.'))).reverse ++ acc)
      else [] := by
  induction rev generalizing acc with
  | nil => simp [extLoop]
  | cons c rev ih =>
    by_cases hs : IsPathSeparator goos c = true
    · simp [extLoop, hs, List.takeWhile]
    · have hs1 : IsPathSeparator goos c = false := by simpa using hs
      by_cases hd : c = '.'
      · subst hd
        simp [extLoop, hs1, List.takeWhile]
      · have hd1 : (c == '.') = false := by simpa using hd
        have hd2 : ('.' == c) = false := by
          simpa using (fun h : '.' = c => hd h.symm)
        simp only [extLoop, hs1, hd1, List.takeWhile, Bool.not_false, ih (c :: acc)]
        simp [List.contains, List.elem, hd2, List.takeWhile, hd1]

/-- The code's `filepath.Ext` computes the extension of the specification's
wording. -/
theorem Ext_eq_specExtension (goos : GOOS) (p : String) :
    Ext goos p = specExtension goos p := by
  unfold Ext specExtension lastElement
  rw [extLoop_eq]
  simp only [List.append_nil, List.reverse_reverse]
  by_cases h : (List.takeWhile (fun c => !IsPathSeparator goos c) p.data.reverse).contains '.' = true
  · have h2 : (List.takeWhile (fun c => !IsPathSeparator goos c) p.data.reverse).reverse.contains '.' = true := by
      simpa using h
    simp only [h, h2, if_true]
  · have h1 : (List.takeWhile (fun c => !IsPathSeparator goos c) p.data.reverse).contains '.' = false := by
      simpa using h
    have h2 : (List.takeWhile (fun c => !IsPathSeparator goos c) p.data.reverse).reverse.contains '.' = false := by
      simpa using h
    simp only [h1, h2]
    rfl

/-! ## Lemmas on `strings.Split` -/

theorem splitChars_ne_nil (sep : Char) (cs : List Char) : splitChars sep cs ≠ [] := by
  induction cs with
  | nil => simp [splitChars]
  | cons c cs ih =>
    unfold splitChars
    split
    · simp
    · split <;> simp

theorem splitChars_head (sep : Char) (cs : List Char) :
    (splitChars sep cs).headD [] = cs.takeWhile (fun c => !(c == sep)) := by
  induction cs with
  | nil => simp [splitChars]
  | cons c cs ih =>
    unfold splitChars
    by_cases h : (c == sep) = true
    · simp [h, List.takeWhile]
    · have h1 : (c == sep) = false := by simpa using h
      simp only [h1, List.takeWhile, Bool.not_false]
      cases hsp : splitChars sep cs with
      | nil => exact absurd hsp (splitChars_ne_nil sep cs)
      | cons x xs =>
        rw [hsp] at ih
        simp at ih
        simp [ih]

theorem stringsSplit_head (s : String) (sep : Char) :
    (stringsSplit s sep).headD "" = ⟨s.data.takeWhile (fun c => !(c == sep))⟩ := by
  unfold stringsSplit
  have h := splitChars_head sep s.data
  cases hsp : splitChars sep s.data with
  | nil => exact absurd hsp (splitChars_ne_nil sep s.data)
  | cons x xs =>
    rw [hsp] at h
    simp at h
    simp [h]

theorem stripHostPort_host (r : Request) :
    (stripHostPort r).URL.Host = ⟨r.URL.Host.data.takeWhile (fun c => !(c == ':'))⟩ := by
  show (stringsSplit r.URL.Host ':').headD "" = _
  exact stringsSplit_head r.URL.Host ':'

/-! ## The content-type resolver -/

/-- The value `setContentType` stores, by the three branches of the source. -/
theorem setContentType_some (s : ProxySettings) (goos : GOOS) (r : Request) (resp : Response) :
    setContentType s goos (some r) (some resp) =
      some { resp with Header := resp.Header.Set "Content-Type" (
        if Ext goos r.URL.Path ≠ "" then mapIndex s.ExtMimeTypes (sliceFrom1 (Ext goos r.URL.Path))
         else if Ext goos (resp.Header.Get "ZIPSVR_FILENAME") ≠ "" then
           mapIndex s.ExtMimeTypes (sliceFrom1 (Ext goos (resp.Header.Get "ZIPSVR_FILENAME")))
         else mapIndex s.ExtMimeTypes "default") } := by
  unfold setContentType
  by_cases h1 : Ext goos r.URL.Path = ""
  · by_cases h2 : Ext goos (resp.Header.Get "ZIPSVR_FILENAME") = ""
    · simp [h1, h2]
    · simp [h1, h2]
  · simp [h1]

theorem mapIndex_of_lookup_none (m : List (String × String)) (k : String)
    (h : m.lookup k = none) : mapIndex m k = "" := by
  simp [mapIndex, h]

/-- C1: for every request path, backend-reported filename (the
`ZIPSVR_FILENAME` response header, read as empty when absent) and extension
table, `setContentType` stores as Content-Type the result of the
specification's first-match resolver: the table at the path's extension
(leading dot stripped, case unchanged) when the path has one, else the table at
the filename's extension when it has one, else the `default` entry.  The three
examples of the specification hold on the code. -/
theorem setContentType_first_match :
    (∀ (s : ProxySettings) (goos : GOOS) (r : Request) (resp : Response),
      ∃ out, setContentType s goos (some r) (some resp) = some out ∧
        out.Header.Get "Content-Type" =
          Resolve s.ExtMimeTypes goos r.URL.Path (resp.Header.Get "ZIPSVR_FILENAME") ∧
        out.Header.values "Content-Type" =
          [Resolve s.ExtMimeTypes goos r.URL.Path (resp.Header.Get "ZIPSVR_FILENAME")]) ∧
    (∀ (s : ProxySettings) (goos : GOOS) (r : Request) (resp : Response),
      (setContentType s goos (some { r with URL := { r.URL with Path := "/game/movie.mp4" } })
          (some { resp with Header := [] })).map (fun o => o.Header.Get "Content-Type")
        = some (mapIndex s.ExtMimeTypes "mp4") ∧
      (setContentType s goos (some { r with URL := { r.URL with Path := "/game/noext" } })
          (some { resp with Header := [("Zipsvr_filename", ["archive/member.swf"])] })).map
            (fun o => o.Header.Get "Content-Type")
        = some (mapIndex s.ExtMimeTypes "swf") ∧
      (setContentType s goos (some { r with URL := { r.URL with Path := "/game/noext" } })
          (some { resp with Header := [] })).map (fun o => o.Header.Get "Content-Type")
        = some (mapIndex s.ExtMimeTypes "default")) := by
  refine ⟨?_, ?_⟩
  · intro s goos r resp
    refine ⟨_, setContentType_some s goos r resp, ?_, ?_⟩
    · simp only [Header.get_set_contentType, Resolve, Ext_eq_specExtension]
    · simp only [Header.values_set_contentType, Resolve, Ext_eq_specExtension]
  · intro s goos r resp
    have e1 : Ext goos "/game/movie.mp4" = ".mp4" := by cases goos <;> decide
    have e2 : Ext goos "/game/noext" = "" := by cases goos <;> decide
    have e3 : Ext goos "archive/member.swf" = ".swf" := by cases goos <;> decide
    have e4 : Ext goos "" = "" := by cases goos <;> decide
    have g0 : Header.Get [] "ZIPSVR_FILENAME" = "" := by decide
    have g1 : Header.Get [("Zipsvr_filename", ["archive/member.swf"])] "ZIPSVR_FILENAME"
        = "archive/member.swf" := by decide
    have s1 : sliceFrom1 ".mp4" = "mp4" := by decide
    have s3 : sliceFrom1 ".swf" = "swf" := by decide
    have n1 : (".mp4" : String) ≠ "" := by decide
    have n3 : (".swf" : String) ≠ "" := by decide
    refine ⟨?_, ?_, ?_⟩
    · rw [setContentType_some]
      simp only [Option.map, e1, s1, n1, Header.get_set_contentType, ne_eq, not_false_eq_true, if_true]
    · rw [setContentType_some]
      simp only [Option.map, e2, g1, e3, s3, n3, Header.get_set_contentType, ne_eq,
        not_true_eq_false, not_false_eq_true, if_true, if_false]
    · rw [setContentType_some]
      simp only [Option.map, e2, g0, e4, Header.get_set_contentType, ne_eq,
        not_true_eq_false, if_false]

/-- C7: when the request path has an extension that is not a key of the
extension table, `setContentType` stores the empty Content-Type, whatever the
backend-reported filename and the `default` entry are; and when the path has
no extension and the backend-reported filename has an unmapped one, the stored
Content-Type is empty as well. -/
theorem setContentType_unmapped_empty (s : ProxySettings) (goos : GOOS) (r : Request)
    (resp : Response) :
    (Ext goos r.URL.Path ≠ "" →
      s.ExtMimeTypes.lookup (sliceFrom1 (Ext goos r.URL.Path)) = none →
      ∃ out, setContentType s goos (some r) (some resp) = some out ∧
        out.Header.Get "Content-Type" = "" ∧ out.Header.values "Content-Type" = [""]) ∧
    (Ext goos r.URL.Path = "" →
      Ext goos (resp.Header.Get "ZIPSVR_FILENAME") ≠ "" →
      s.ExtMimeTypes.lookup (sliceFrom1 (Ext goos (resp.Header.Get "ZIPSVR_FILENAME"))) = none →
      ∃ out, setContentType s goos (some r) (some resp) = some out ∧
        out.Header.Get "Content-Type" = "" ∧ out.Header.values "Content-Type" = [""]) := by
  refine ⟨?_, ?_⟩
  · intro h1 h2
    refine ⟨_, setContentType_some s goos r resp, ?_, ?_⟩
    · simp only [Header.get_set_contentType, if_pos h1, mapIndex_of_lookup_none _ _ h2]
    · simp only [Header.values_set_contentType, if_pos h1, mapIndex_of_lookup_none _ _ h2]
  · intro h1 h2 h3
    have h1n : ¬ (Ext goos r.URL.Path ≠ "") := fun h => h h1
    refine ⟨_, setContentType_some s goos r resp, ?_, ?_⟩
    · simp only [Header.get_set_contentType, if_neg h1n, if_pos h2, mapIndex_of_lookup_none _ _ h3]
    · simp only [Header.values_set_contentType, if_neg h1n, if_pos h2, mapIndex_of_lookup_none _ _ h3]

/-- Witness for C7: path `/game/file.xyz` with a backend filename `member.swf`
(mapped) and a non-empty `default`, and path `/game/noext` with a backend
filename `member.xyz`. -/
theorem setContentType_unmapped_empty_witness :
    mapIndex sampleSettings.ExtMimeTypes "swf" ≠ "" ∧
    mapIndex sampleSettings.ExtMimeTypes "default" ≠ "" ∧
    (∃ out, setContentType sampleSettings GOOS.unix (some unmappedRequest) (some swfResponse) = some out ∧
        out.Header.Get "Content-Type" = "" ∧ out.Header.values "Content-Type" = [""]) ∧
    (∃ out, setContentType sampleSettings GOOS.unix (some noextRequest) (some xyzResponse) = some out ∧
        out.Header.Get "Content-Type" = "" ∧ out.Header.values "Content-Type" = [""]) :=
  ⟨by decide, by decide,
   (setContentType_unmapped_empty sampleSettings GOOS.unix unmappedRequest swfResponse).1
     (by decide) (by decide),
   (setContentType_unmapped_empty sampleSettings GOOS.unix noextRequest xyzResponse).2
     (by decide) (by decide) (by decide)⟩

/-- C8, as stated, fails: `/game/file.xyz` has the unmapped extension `xyz`,
the table has a `default` entry, and the stored Content-Type is empty, not
that entry. -/
theorem unmapped_not_default :
    ¬ (∀ (s : ProxySettings) (goos : GOOS) (r : Request) (resp : Response),
        Ext goos r.URL.Path ≠ "" →
        s.ExtMimeTypes.lookup (sliceFrom1 (Ext goos r.URL.Path)) = none →
        ∃ out, setContentType s goos (some r) (some resp) = some out ∧
          out.Header.Get "Content-Type" = mapIndex s.ExtMimeTypes "default") := by
  intro h
  obtain ⟨out, h1, h2⟩ := h sampleSettings GOOS.unix unmappedRequest swfResponse (by decide) (by decide)
  have h3 : setContentType sampleSettings GOOS.unix (some unmappedRequest) (some swfResponse)
      = some { swfResponse with Header := swfResponse.Header.Set "Content-Type" "" } := by decide
  rw [h3] at h1
  injection h1 with h1
  subst h1
  revert h2
  decide

/-- C8, amended: `setContentType` never fails on a request/response pair; it
stores the `default` entry when neither the request path nor the
backend-reported filename has an extension, and the empty string when the
extension used for the lookup (the path's, else the filename's) is not a key
of the table. -/
theorem setContentType_default_only_without_extension (s : ProxySettings) (goos : GOOS)
    (r : Request) (resp : Response) :
    (∃ out, setContentType s goos (some r) (some resp) = some out) ∧
    (Ext goos r.URL.Path = "" → Ext goos (resp.Header.Get "ZIPSVR_FILENAME") = "" →
      (setContentType s goos (some r) (some resp)).map (fun o => o.Header.Get "Content-Type")
        = some (mapIndex s.ExtMimeTypes "default")) ∧
    ((if Ext goos r.URL.Path ≠ "" then Ext goos r.URL.Path
        else Ext goos (resp.Header.Get "ZIPSVR_FILENAME")) ≠ "" →
      s.ExtMimeTypes.lookup (sliceFrom1 (if Ext goos r.URL.Path ≠ "" then Ext goos r.URL.Path
        else Ext goos (resp.Header.Get "ZIPSVR_FILENAME"))) = none →
      (setContentType s goos (some r) (some resp)).map (fun o => o.Header.Get "Content-Type")
        = some "") := by
  refine ⟨⟨_, setContentType_some s goos r resp⟩, ?_, ?_⟩
  · intro h1 h2
    rw [setContentType_some]
    simp only [Option.map, h1, h2, Header.get_set_contentType, ne_eq, not_true_eq_false, if_false]
  · intro h1 h2
    rw [setContentType_some]
    by_cases hp : Ext goos r.URL.Path ≠ ""
    · rw [if_pos hp] at h2
      simp only [Option.map, if_pos hp, Header.get_set_contentType, mapIndex_of_lookup_none _ _ h2]
    · rw [if_neg hp] at h1 h2
      simp only [Option.map, if_neg hp, if_pos h1, Header.get_set_contentType,
        mapIndex_of_lookup_none _ _ h2]

/-- Witness for C8 amended: `/game/noext` with no backend filename gets the
`default` entry, `/game/file.xyz` gets the empty string. -/
theorem setContentType_default_only_without_extension_witness :
    (setContentType sampleSettings GOOS.unix (some noextRequest) (some { StatusCode := 200 })).map
        (fun o => o.Header.Get "Content-Type") = some "application/octet-stream" ∧
    (setContentType sampleSettings GOOS.unix (some unmappedRequest) (some swfResponse)).map
        (fun o => o.Header.Get "Content-Type") = some "" :=
  ⟨(setContentType_default_only_without_extension sampleSettings GOOS.unix noextRequest
      { StatusCode := 200 }).2.1 (by decide) (by decide),
   (setContentType_default_only_without_extension sampleSettings GOOS.unix unmappedRequest
      swfResponse).2.2 (by decide) (by decide)⟩

/-! ## The handler, branch by branch -/

theorem doCalls_append (es fs : List Event) : doCalls (es ++ fs) = doCalls es ++ doCalls fs := by
  induction es with
  | nil => rfl
  | cons e es ih => cases e <;> simp [doCalls, ih]

theorem doCalls_logError (err : Option String) : doCalls (logError err) = [] := by
  cases err <;> rfl

/-- The handler panics when `http.NewRequest` yields no request. -/
theorem onRequest_newRequest_none (env : Env) (s : ProxySettings) (goos : GOOS) (r : Request)
    (hq : env.NewRequest r.Method (env.urlString (rewriteURL s (stripHostPort r))) r.Body = none) :
    onRequest env s goos r =
      ([Event.printf ("Proxy Request: " ++ ((stripHostPort r).URL.Host ++ r.URL.Path) ++ "\n")],
       HandlerResult.panic "nil pointer dereference (proxyReq.Header)") := by
  have hq1 : env.NewRequest (stripHostPort r).Method
      (env.urlString (rewriteURL s (stripHostPort r))) (stripHostPort r).Body = none := hq
  simp only [onRequest, hq1]
  rfl

/-- The handler panics when the primary call yields no response. -/
theorem onRequest_primary_none (env : Env) (s : ProxySettings) (goos : GOOS) (r q : Request)
    (hq : env.NewRequest r.Method (env.urlString (rewriteURL s (stripHostPort r))) r.Body = some q)
    (hd : (env.Do {} { q with Header := r.Header }).resp = none) :
    onRequest env s goos r =
      ([Event.printf ("Proxy Request: " ++ ((stripHostPort r).URL.Host ++ r.URL.Path) ++ "\n"),
        Event.clientDo {} { q with Header := r.Header }],
       HandlerResult.panic "nil pointer dereference (proxyResp.StatusCode)") := by
  have hq1 : env.NewRequest (stripHostPort r).Method
      (env.urlString (rewriteURL s (stripHostPort r))) (stripHostPort r).Body = some q := hq
  have hd1 : (env.Do {} { q with Header := (stripHostPort r).Header }).resp = none := hd
  simp only [onRequest, hq1, hd1]
  rfl

/-- The handler on a primary response below 400. -/
theorem onRequest_primary_lt (env : Env) (s : ProxySettings) (goos : GOOS) (r q : Request)
    (pr : Response)
    (hq : env.NewRequest r.Method (env.urlString (rewriteURL s (stripHostPort r))) r.Body = some q)
    (hd : (env.Do {} { q with Header := r.Header }).resp = some pr)
    (hlt : pr.StatusCode < 400) :
    onRequest env s goos r =
      ([Event.printf ("Proxy Request: " ++ ((stripHostPort r).URL.Host ++ r.URL.Path) ++ "\n"),
        Event.clientDo {} { q with Header := r.Header },
        Event.printf "\tServing from Zip...\n"]
          ++ logError (env.Do {} { q with Header := r.Header }).err,
       HandlerResult.returned (stripHostPort r)
         (setContentType s goos (some (stripHostPort r)) (some pr))) := by
  have hq1 : env.NewRequest (stripHostPort r).Method
      (env.urlString (rewriteURL s (stripHostPort r))) (stripHostPort r).Body = some q := hq
  have hd1 : (env.Do {} { q with Header := (stripHostPort r).Header }).resp = some pr := hd
  have hge : ¬ (pr.StatusCode ≥ 400) := by omega
  simp only [onRequest, hq1, hd1, hlt, hge, if_true, if_false]
  rfl

/-- The handler on a primary response of 400 or above. -/
theorem onRequest_primary_ge (env : Env) (s : ProxySettings) (goos : GOOS) (r q : Request)
    (pr : Response)
    (hq : env.NewRequest r.Method (env.urlString (rewriteURL s (stripHostPort r))) r.Body = some q)
    (hd : (env.Do {} { q with Header := r.Header }).resp = some pr)
    (hge : pr.StatusCode ≥ 400) :
    onRequest env s goos r =
      ([Event.printf ("Proxy Request: " ++ ((stripHostPort r).URL.Host ++ r.URL.Path) ++ "\n"),
        Event.clientDo {} { q with Header := r.Header },
        Event.printf "\tServing from Legacy...\n",
        Event.clientDo { Transport := some (fallbackTransport env (legacyPort s)), Timeout := 300 }
          { stripHostPort r with RequestURI := "" }]
          ++ logError (env.Do { Transport := some (fallbackTransport env (legacyPort s)), Timeout := 300 }
              { stripHostPort r with RequestURI := "" }).err,
       HandlerResult.returned { stripHostPort r with RequestURI := "" }
         (setContentType s goos (some { stripHostPort r with RequestURI := "" })
           (env.Do { Transport := some (fallbackTransport env (legacyPort s)), Timeout := 300 }
              { stripHostPort r with RequestURI := "" }).resp)) := by
  have hq1 : env.NewRequest (stripHostPort r).Method
      (env.urlString (rewriteURL s (stripHostPort r))) (stripHostPort r).Body = some q := hq
  have hd1 : (env.Do {} { q with Header := (stripHostPort r).Header }).resp = some pr := hd
  have hlt : ¬ (pr.StatusCode < 400) := by omega
  simp only [onRequest, hq1, hd1, hlt, hge, if_true, if_false, checkLegacy]
  rfl

/-- The frame of `setContentType` on a response: status code, body and every
header key other than `Content-Type` are kept, `Content-Type` holds the
resolver's result alone. -/
theorem setContentType_frame (s : ProxySettings) (goos : GOOS) (r : Request) (resp : Response) :
    ∃ out, setContentType s goos (some r) (some resp) = some out ∧
      out.StatusCode = resp.StatusCode ∧ out.Body = resp.Body ∧
      (∀ k, k ≠ "Content-Type" → out.Header.values k = resp.Header.values k) ∧
      out.Header.values "Content-Type" =
        [Resolve s.ExtMimeTypes goos r.URL.Path (resp.Header.Get "ZIPSVR_FILENAME")] := by
  refine ⟨_, setContentType_some s goos r resp, rfl, rfl, ?_, ?_⟩
  · intro k hk
    exact Header.values_set_other _ _ k hk
  · simp only [Header.values_set_contentType, Resolve, Ext_eq_specExtension]

/-! ## The failover router -/

/-- C2: when the primary call returns a response with status below 400, the
handler makes no fallback attempt (its only call is the primary one) and
returns that response: status code, body and every header other than
Content-Type are the primary response's, and Content-Type holds the
resolver's result alone, whatever the backend had put there. -/
theorem primary_success_is_returned (env : Env) (s : ProxySettings) (goos : GOOS) (r q : Request)
    (pr : Response)
    (hq : env.NewRequest r.Method (env.urlString (rewriteURL s (stripHostPort r))) r.Body = some q)
    (hd : (env.Do {} { q with Header := r.Header }).resp = some pr)
    (hlt : pr.StatusCode < 400) :
    legacyAttempts (onRequest env s goos r).1 = [] ∧
    primaryAttempts (onRequest env s goos r).1 = [{ q with Header := r.Header }] ∧
    ∃ out, (onRequest env s goos r).2 = HandlerResult.returned (stripHostPort r) (some out) ∧
      out.StatusCode = pr.StatusCode ∧ out.Body = pr.Body ∧
      (∀ k, k ≠ "Content-Type" → out.Header.values k = pr.Header.values k) ∧
      out.Header.values "Content-Type" =
        [Resolve s.ExtMimeTypes goos r.URL.Path (pr.Header.Get "ZIPSVR_FILENAME")] := by
  rw [onRequest_primary_lt env s goos r q pr hq hd hlt]
  refine ⟨?_, ?_, ?_⟩
  · simp [legacyAttempts, doCalls_append, doCalls_logError, doCalls]
  · simp [primaryAttempts, doCalls_append, doCalls_logError, doCalls]
  · obtain ⟨out, h1, h2, h3, h4, h5⟩ := setContentType_frame s goos (stripHostPort r) pr
    exact ⟨out, by rw [h1], h2, h3, h4, h5⟩

/-- Witness for C2: the primary backend answers `200` with a stale
Content-Type; the handler returns it with `text/html`. -/
theorem primary_success_is_returned_witness :
    legacyAttempts (onRequest (sampleEnv ⟨some okResponse, none⟩ ⟨some legacyResponse, none⟩)
      sampleSettings GOOS.unix sampleRequest).1 = [] ∧
    primaryAttempts (onRequest (sampleEnv ⟨some okResponse, none⟩ ⟨some legacyResponse, none⟩)
      sampleSettings GOOS.unix sampleRequest).1
        = [{ Method := "GET", Header := sampleRequest.Header }] ∧
    ∃ out, (onRequest (sampleEnv ⟨some okResponse, none⟩ ⟨some legacyResponse, none⟩)
        sampleSettings GOOS.unix sampleRequest).2
          = HandlerResult.returned (stripHostPort sampleRequest) (some out) ∧
      out.StatusCode = okResponse.StatusCode ∧ out.Body = okResponse.Body ∧
      (∀ k, k ≠ "Content-Type" → out.Header.values k = okResponse.Header.values k) ∧
      out.Header.values "Content-Type" =
        [Resolve sampleSettings.ExtMimeTypes GOOS.unix sampleRequest.URL.Path
          (okResponse.Header.Get "ZIPSVR_FILENAME")] :=
  primary_success_is_returned (sampleEnv ⟨some okResponse, none⟩ ⟨some legacyResponse, none⟩)
    sampleSettings GOOS.unix sampleRequest { Method := "GET" } okResponse
    (by decide) (by decide) (by decide)

/-- C3, as stated, fails: the primary backend answers `404`, the legacy call
fails without a response, and the handler returns no response at all, so it
is not true that a response is returned for every request whose primary
response is 400 or above. -/
theorem fallback_may_return_no_response :
    ¬ (∀ (env : Env) (s : ProxySettings) (goos : GOOS) (r q : Request) (pr : Response),
        env.NewRequest r.Method (env.urlString (rewriteURL s (stripHostPort r))) r.Body = some q →
        (env.Do {} { q with Header := r.Header }).resp = some pr →
        pr.StatusCode ≥ 400 →
        ∃ r1 out, (onRequest env s goos r).2 = HandlerResult.returned r1 (some out)) := by
  intro h
  obtain ⟨r1, out, ho⟩ := h (sampleEnv ⟨some notFoundResponse, none⟩ ⟨none, some "connection refused"⟩)
    sampleSettings GOOS.unix sampleRequest { Method := "GET" } notFoundResponse
    (by decide) (by decide) (by decide)
  have hv : (onRequest (sampleEnv ⟨some notFoundResponse, none⟩ ⟨none, some "connection refused"⟩)
      sampleSettings GOOS.unix sampleRequest).2
        = HandlerResult.returned { stripHostPort sampleRequest with RequestURI := "" } none := by
    decide
  rw [hv] at ho
  injection ho with _ h2
  exact Option.noConfusion h2

/-- C3, amended: when the primary call returns a response with status 400 or
above, the handler makes exactly one fallback attempt and returns what that
attempt yields, never the primary response: a legacy response is returned
whatever its status code, with status, body and every header other than
Content-Type kept and Content-Type resolved; when the attempt yields no
response the handler returns none. -/
theorem fallback_result_is_returned (env : Env) (s : ProxySettings) (goos : GOOS) (r q : Request)
    (pr : Response)
    (hq : env.NewRequest r.Method (env.urlString (rewriteURL s (stripHostPort r))) r.Body = some q)
    (hd : (env.Do {} { q with Header := r.Header }).resp = some pr)
    (hge : pr.StatusCode ≥ 400) :
    legacyAttempts (onRequest env s goos r).1 = [{ stripHostPort r with RequestURI := "" }] ∧
    primaryAttempts (onRequest env s goos r).1 = [{ q with Header := r.Header }] ∧
    (onRequest env s goos r).2 =
      HandlerResult.returned { stripHostPort r with RequestURI := "" }
        (setContentType s goos (some { stripHostPort r with RequestURI := "" })
          (env.Do { Transport := some (fallbackTransport env (legacyPort s)), Timeout := 300 }
            { stripHostPort r with RequestURI := "" }).resp) ∧
    (∀ lr, (env.Do { Transport := some (fallbackTransport env (legacyPort s)), Timeout := 300 }
            { stripHostPort r with RequestURI := "" }).resp = some lr →
      ∃ out, (onRequest env s goos r).2 =
          HandlerResult.returned { stripHostPort r with RequestURI := "" } (some out) ∧
        out.StatusCode = lr.StatusCode ∧ out.Body = lr.Body ∧
        (∀ k, k ≠ "Content-Type" → out.Header.values k = lr.Header.values k) ∧
        out.Header.values "Content-Type" =
          [Resolve s.ExtMimeTypes goos r.URL.Path (lr.Header.Get "ZIPSVR_FILENAME")]) ∧
    ((env.Do { Transport := some (fallbackTransport env (legacyPort s)), Timeout := 300 }
            { stripHostPort r with RequestURI := "" }).resp = none →
      (onRequest env s goos r).2 =
        HandlerResult.returned { stripHostPort r with RequestURI := "" } none) := by
  rw [onRequest_primary_ge env s goos r q pr hq hd hge]
  refine ⟨?_, ?_, rfl, ?_, ?_⟩
  · simp [legacyAttempts, doCalls_append, doCalls_logError, doCalls]
  · simp [primaryAttempts, doCalls_append, doCalls_logError, doCalls]
  · intro lr hlr
    obtain ⟨out, h1, h2, h3, h4, h5⟩ :=
      setContentType_frame s goos { stripHostPort r with RequestURI := "" } lr
    refine ⟨out, ?_, h2, h3, h4, h5⟩
    simp only [hlr, h1]
  · intro hn
    simp only [hn]
    rfl

/-- Witness for C3 amended: primary `404`, legacy `404`; the legacy `404` is
the outcome, after exactly one fallback attempt. -/
theorem fallback_result_is_returned_witness :
    legacyAttempts (onRequest (sampleEnv ⟨some notFoundResponse, none⟩
        ⟨some { notFoundResponse with Body := "legacy: not found" }, none⟩)
      sampleSettings GOOS.unix sampleRequest).1
        = [{ stripHostPort sampleRequest with RequestURI := "" }] ∧
    (onRequest (sampleEnv ⟨some notFoundResponse, none⟩
        ⟨some { notFoundResponse with Body := "legacy: not found" }, none⟩)
      sampleSettings GOOS.unix sampleRequest).2 =
      HandlerResult.returned { stripHostPort sampleRequest with RequestURI := "" }
        (some { StatusCode := 404, Header := [("Content-Type", ["text/html"])],
                Body := "legacy: not found" }) :=
  ⟨(fallback_result_is_returned (sampleEnv ⟨some notFoundResponse, none⟩
        ⟨some { notFoundResponse with Body := "legacy: not found" }, none⟩)
      sampleSettings GOOS.unix sampleRequest { Method := "GET" } notFoundResponse
      (by decide) (by decide) (by decide)).1,
   by decide⟩

/-- C4: evaluation at the failing input.  The primary call fails at transport
level (no response, error `connection refused`) while the legacy backend is up:
the handler panics on `proxyResp.StatusCode` and makes no fallback attempt. -/
theorem primary_transport_error_panics :
    (onRequest (sampleEnv ⟨none, some "connection refused"⟩ ⟨some legacyResponse, none⟩)
      sampleSettings GOOS.unix sampleRequest).2
        = HandlerResult.panic "nil pointer dereference (proxyResp.StatusCode)" ∧
    legacyAttempts (onRequest (sampleEnv ⟨none, some "connection refused"⟩ ⟨some legacyResponse, none⟩)
      sampleSettings GOOS.unix sampleRequest).1 = [] := by
  decide

/-! ## The fallback transport -/

/-- Whatever the run, the fallback transports among the handler's events dial
nothing, or dial once through the closure built from the legacy port. -/
theorem dialCalls_onRequest (env : Env) (s : ProxySettings) (goos : GOOS) (r : Request)
    (network addr : String) :
    dialCalls (onRequest env s goos r).1 network addr = [] ∨
    dialCalls (onRequest env s goos r).1 network addr
      = [fallbackDialContext (legacyPort s) network addr] := by
  cases hq : env.NewRequest r.Method (env.urlString (rewriteURL s (stripHostPort r))) r.Body with
  | none =>
    left
    rw [onRequest_newRequest_none env s goos r hq]
    rfl
  | some q =>
    cases hd : (env.Do {} { q with Header := r.Header }).resp with
    | none =>
      left
      rw [onRequest_primary_none env s goos r q hq hd]
      rfl
    | some pr =>
      by_cases hlt : pr.StatusCode < 400
      · left
        rw [onRequest_primary_lt env s goos r q pr hq hd hlt]
        simp [dialCalls, doCalls_append, doCalls_logError, doCalls]
      · right
        have hge : pr.StatusCode ≥ 400 := by omega
        rw [onRequest_primary_ge env s goos r q pr hq hd hge]
        simp [dialCalls, doCalls_append, doCalls_logError, doCalls, fallbackTransport]

theorem legacyPort_eq (s : ProxySettings) :
    legacyPort s = if s.LegacyUsePHPServer then s.LegacyPHPPort else s.LegacyGoPort := by
  rfl

/-- C5: every dial performed by a fallback transport of the handler goes to
`127.0.0.1:` followed by the legacy port (`LegacyPHPPort` when
`LegacyUsePHPServer` is set, `LegacyGoPort` otherwise), whatever network and
address the HTTP stack asked for; so for any two requests under the same
settings, with any hosts and with or without TLS, the dialled addresses agree. -/
theorem fallback_dial_is_pinned (s : ProxySettings) (env1 env2 : Env) (goos : GOOS)
    (r1 r2 : Request) (n1 a1 n2 a2 : String) (d1 d2 : DialCall)
    (h1 : d1 ∈ dialCalls (onRequest env1 s goos r1).1 n1 a1)
    (h2 : d2 ∈ dialCalls (onRequest env2 s goos r2).1 n2 a2) :
    d1.addr = "127.0.0.1:" ++ (if s.LegacyUsePHPServer then s.LegacyPHPPort else s.LegacyGoPort) ∧
    d2.addr = d1.addr ∧ d1.network = n1 ∧ d2.network = n2 ∧
    (∀ network addr : String, (fallbackDialContext (legacyPort s) network addr).addr
      = "127.0.0.1:" ++ (if s.LegacyUsePHPServer then s.LegacyPHPPort else s.LegacyGoPort)) := by
  have e1 : d1 = fallbackDialContext (legacyPort s) n1 a1 := by
    rcases dialCalls_onRequest env1 s goos r1 n1 a1 with h | h
    · rw [h] at h1
      exact absurd h1 (List.not_mem_nil _)
    · rw [h] at h1
      exact List.mem_singleton.mp h1
  have e2 : d2 = fallbackDialContext (legacyPort s) n2 a2 := by
    rcases dialCalls_onRequest env2 s goos r2 n2 a2 with h | h
    · rw [h] at h2
      exact absurd h2 (List.not_mem_nil _)
    · rw [h] at h2
      exact List.mem_singleton.mp h2
  subst e1 e2
  refine ⟨?_, ?_, rfl, rfl, ?_⟩
  · simp only [fallbackDialContext, legacyPort_eq]
  · simp only [fallbackDialContext]
  · intro network addr
    simp only [fallbackDialContext, legacyPort_eq]

/-- Witness for C5: a plain-HTTP request for `classicgame.com:8080` and a TLS
request for `other.example:443`, both falling back, asked to dial different
addresses; both dial `127.0.0.1:22600`. -/
theorem fallback_dial_is_pinned_witness :
    (⟨⟨30, 30⟩, "tcp", "127.0.0.1:22600"⟩ : DialCall).addr = "127.0.0.1:" ++
      (if sampleSettings.LegacyUsePHPServer then sampleSettings.LegacyPHPPort
        else sampleSettings.LegacyGoPort) ∧
    (⟨⟨30, 30⟩, "tcp6", "127.0.0.1:22600"⟩ : DialCall).addr
      = (⟨⟨30, 30⟩, "tcp", "127.0.0.1:22600"⟩ : DialCall).addr :=
  ⟨(fallback_dial_is_pinned sampleSettings
      (sampleEnv ⟨some notFoundResponse, none⟩ ⟨some legacyResponse, none⟩)
      (sampleEnv ⟨some notFoundResponse, none⟩ ⟨none, some "timeout"⟩) GOOS.windows
      sampleRequest tlsRequest "tcp" "classicgame.com:8080" "tcp6" "other.example:443"
      ⟨⟨30, 30⟩, "tcp", "127.0.0.1:22600"⟩ ⟨⟨30, 30⟩, "tcp6", "127.0.0.1:22600"⟩
      (by decide) (by decide)).1,
   (fallback_dial_is_pinned sampleSettings
      (sampleEnv ⟨some notFoundResponse, none⟩ ⟨some legacyResponse, none⟩)
      (sampleEnv ⟨some notFoundResponse, none⟩ ⟨none, some "timeout"⟩) GOOS.windows
      sampleRequest tlsRequest "tcp" "classicgame.com:8080" "tcp6" "other.example:443"
      ⟨⟨30, 30⟩, "tcp", "127.0.0.1:22600"⟩ ⟨⟨30, 30⟩, "tcp6", "127.0.0.1:22600"⟩
      (by decide) (by decide)).2.1⟩

/-! ## The primary-candidate URL and the fallback request -/

theorem takeWhile_ne_append (c : Char) (xs ys : List Char) (h : c ∉ xs) :
    (xs ++ c :: ys).takeWhile (fun x => !(x == c)) = xs := by
  induction xs with
  | nil => simp [List.takeWhile]
  | cons x xs ih =>
    have hx : (x == c) = false := by
      simpa using (fun e : x = c => h (by simp [e]))
    have hxs : c ∉ xs := fun hm => h (List.mem_cons_of_mem _ hm)
    simp [List.takeWhile, hx, ih hxs]

theorem takeWhile_ne_self (c : Char) (xs : List Char) (h : c ∉ xs) :
    xs.takeWhile (fun x => !(x == c)) = xs := by
  induction xs with
  | nil => rfl
  | cons x xs ih =>
    have hx : (x == c) = false := by
      simpa using (fun e : x = c => h (by simp [e]))
    have hxs : c ∉ xs := fun hm => h (List.mem_cons_of_mem _ hm)
    simp [List.takeWhile, hx, ih hxs]

theorem not_mem_takeWhile_ne (c : Char) (xs : List Char) :
    c ∉ xs.takeWhile (fun x => !(x == c)) := by
  intro hm
  have := List.mem_takeWhile_imp hm
  simp at this

/-- The primary attempt is the request built by `http.NewRequest` from the
rewritten URL, carrying the inbound headers, whatever happens afterwards. -/
theorem primaryAttempts_onRequest (env : Env) (s : ProxySettings) (goos : GOOS) (r q : Request)
    (hq : env.NewRequest r.Method (env.urlString (rewriteURL s (stripHostPort r))) r.Body = some q) :
    primaryAttempts (onRequest env s goos r).1 = [{ q with Header := r.Header }] := by
  cases hd : (env.Do {} { q with Header := r.Header }).resp with
  | none =>
    rw [onRequest_primary_none env s goos r q hq hd]
    rfl
  | some pr =>
    by_cases hlt : pr.StatusCode < 400
    · rw [onRequest_primary_lt env s goos r q pr hq hd hlt]
      simp [primaryAttempts, doCalls_append, doCalls_logError, doCalls]
    · have hge : pr.StatusCode ≥ 400 := by omega
      rw [onRequest_primary_ge env s goos r q pr hq hd hge]
      simp [primaryAttempts, doCalls_append, doCalls_logError, doCalls]

/-- C6: the primary-candidate URL.  Its path is `content/` followed by the
port-stripped host followed by the request path; the stripped host never
contains `:`, is `a` for a host `a:b` with no `:` in `a`, and is the host itself
when that has no `:`; its host is `127.0.0.1:` with `ServerHTTPPort` for plain
HTTP and with `ServerHTTPSPort` for a request that arrived over TLS; scheme
and query string are the request's.  The primary attempt is built from it. -/
theorem primary_url_is_rewritten (s : ProxySettings) (r : Request) :
    (rewriteURL s (stripHostPort r)).Path
      = "content/" ++ (stripHostPort r).URL.Host ++ r.URL.Path ∧
    ':' ∉ (stripHostPort r).URL.Host.data ∧
    (∀ a b : String, r.URL.Host = a ++ ":" ++ b → ':' ∉ a.data → (stripHostPort r).URL.Host = a) ∧
    (':' ∉ r.URL.Host.data → (stripHostPort r).URL.Host = r.URL.Host) ∧
    (r.TLS = none → (rewriteURL s (stripHostPort r)).Host = "127.0.0.1:" ++ s.ServerHTTPPort) ∧
    (r.TLS ≠ none → (rewriteURL s (stripHostPort r)).Host = "127.0.0.1:" ++ s.ServerHTTPSPort) ∧
    (rewriteURL s (stripHostPort r)).Scheme = r.URL.Scheme ∧
    (rewriteURL s (stripHostPort r)).RawQuery = r.URL.RawQuery ∧
    (∀ (env : Env) (goos : GOOS) (q : Request),
      env.NewRequest r.Method (env.urlString (rewriteURL s (stripHostPort r))) r.Body = some q →
      primaryAttempts (onRequest env s goos r).1 = [{ q with Header := r.Header }]) := by
  have hTLS : (stripHostPort r).TLS = r.TLS := rfl
  have hPath : (stripHostPort r).URL.Path = r.URL.Path := rfl
  refine ⟨?_, ?_, ?_, ?_, ?_, ?_, ?_, ?_, ?_⟩
  · unfold rewriteURL
    split <;> simp only [hPath]
  · rw [stripHostPort_host]
    exact not_mem_takeWhile_ne ':' _
  · intro a b hab ha
    rw [stripHostPort_host, hab]
    have hdata : (a ++ ":" ++ b).data = a.data ++ ':' :: b.data := by
      simp [String.data_append]
    rw [hdata, takeWhile_ne_append ':' a.data b.data ha]
  · intro h
    rw [stripHostPort_host, takeWhile_ne_self ':' _ h]
  · intro h
    unfold rewriteURL
    simp [hTLS, h]
  · intro h
    unfold rewriteURL
    cases hr : r.TLS with
    | none => exact absurd hr h
    | some c => simp [hTLS, hr]
  · unfold rewriteURL
    split <;> rfl
  · unfold rewriteURL
    split <;> rfl
  · intro env goos q hq
    exact primaryAttempts_onRequest env s goos r q hq

/-- Witness for C6: `http://classicgame.com:8080/index.html?a=1` over plain
HTTP and `https://other.example:443/api/score.php` over TLS. -/
theorem primary_url_is_rewritten_witness :
    (stripHostPort sampleRequest).URL.Host = "classicgame.com" ∧
    (rewriteURL sampleSettings (stripHostPort sampleRequest)).Path
      = "content/classicgame.com/index.html" ∧
    (rewriteURL sampleSettings (stripHostPort sampleRequest)).Host = "127.0.0.1:22501" ∧
    (rewriteURL sampleSettings (stripHostPort tlsRequest)).Host = "127.0.0.1:22502" ∧
    (stripHostPort noextRequest).URL.Host = "classicgame.com" ∧
    primaryAttempts (onRequest (sampleEnv ⟨some okResponse, none⟩ ⟨none, none⟩) sampleSettings
      GOOS.unix sampleRequest).1 = [{ Method := "GET", Header := sampleRequest.Header }] :=
  ⟨(primary_url_is_rewritten sampleSettings sampleRequest).2.2.1 "classicgame.com" "8080"
      (by decide) (by decide),
   by decide,
   (primary_url_is_rewritten sampleSettings sampleRequest).2.2.2.2.1 (by decide),
   (primary_url_is_rewritten sampleSettings tlsRequest).2.2.2.2.2.1 (by decide),
   (primary_url_is_rewritten sampleSettings noextRequest).2.2.2.1 (by decide),
   (primary_url_is_rewritten sampleSettings sampleRequest).2.2.2.2.2.2.2.2
      (sampleEnv ⟨some okResponse, none⟩ ⟨none, none⟩) GOOS.unix { Method := "GET" } (by decide)⟩

end FlashpointGameServer
